import Mathlib

/-!
Verification of the retrieval and caching engine of a semantic-cache chat
gateway. The TypeScript sources are shallowly embedded: numbers are modelled
as rationals, JavaScript NaN and the two infinities are made explicit in a
small value type, and Math.sqrt is a parameter of every scoring function
(only exactness facts such as sqrt 0 = 0 are ever assumed). Stateful routes
become pure functions from the request data and the outcomes of the external
calls to the produced response.
-/

/-- A JavaScript number that may be non-finite: the result of a floating
division. NaN arises from 0/0, the infinities from x/0 with x nonzero. -/
inductive JsNum where
  | nan : JsNum
  | posInf : JsNum
  | negInf : JsNum
  | val : ℚ → JsNum
deriving DecidableEq, Repr

/-- JavaScript division x / y idealised over the rationals: division by zero
produces NaN (for 0/0) or a signed infinity, all other quotients are exact. -/
def jsDiv (x y : ℚ) : JsNum :=
  if y = 0 then
    if x = 0 then .nan else if 0 < x then .posInf else .negInf
  else .val (x / y)

/-- Sum of pairwise products accumulated by the scoring loop
(dotProduct in both cosineSimilarity implementations). -/
def dotProduct (a b : List ℚ) : ℚ :=
  (List.zipWith (· * ·) a b).sum

/-- Sum of squares of one vector accumulated by the scoring loop
(normA and normB before the square root is taken). -/
def normSq (a : List ℚ) : ℚ :=
  (a.map (fun x => x * x)).sum

namespace RedisVectorStore

/-- cosineSimilarity of src/lib/redis-vector.ts (lines 220-236): mismatched
lengths score 0, a zero normA or normB scores 0, otherwise
dot / (sqrt normA * sqrt normB). Math.sqrt is the parameter sqrt. -/
def cosineSimilarity (sqrt : ℚ → ℚ) (a b : List ℚ) : ℚ :=
  if a.length ≠ b.length then 0
  else
    let nA := normSq a
    let nB := normSq b
    if nA = 0 ∨ nB = 0 then 0
    else dotProduct a b / (sqrt nA * sqrt nB)

/-- A chunk record read back from the store by searchSimilar; the embedding
field may be absent (such records are skipped by the scan). -/
structure StoredChunk where
  id : String
  documentId : String
  content : String
  embedding : Option (List ℚ)
deriving DecidableEq, Repr

/-- A scored result produced by searchSimilar. -/
structure SearchResult where
  id : String
  documentId : String
  content : String
  score : ℚ
deriving DecidableEq, Repr

/-- The descending comparison used by the sort in searchSimilar
(comparator (a, b) => b.score - a.score). -/
def scoreGE (x y : SearchResult) : Prop := y.score ≤ x.score

instance : DecidableRel scoreGE := fun x y => inferInstanceAs (Decidable (y.score ≤ x.score))

instance : IsTotal SearchResult scoreGE := ⟨fun x y => le_total y.score x.score⟩

instance : IsTrans SearchResult scoreGE := ⟨fun _ _ _ h h2 => le_trans h2 h⟩

/-- searchSimilar of src/lib/redis-vector.ts (lines 141-179): every stored
chunk whose record carries an embedding is scored against the query, those
with similarity at least the threshold are kept, the kept results are sorted
by descending score (a stable sort, as JavaScript Array.sort is) and the
first limit of them are returned. -/
def searchSimilar (sqrt : ℚ → ℚ) (stored : List StoredChunk)
    (queryEmbedding : List ℚ) (limit : ℕ) (threshold : ℚ) : List SearchResult :=
  let results := stored.filterMap (fun c =>
    match c.embedding with
    | none => none
    | some e =>
      let similarity := cosineSimilarity sqrt queryEmbedding e
      if threshold ≤ similarity then
        some { id := c.id, documentId := c.documentId, content := c.content, score := similarity }
      else none)
  (List.insertionSort scoreGE results).take limit

end RedisVectorStore

namespace RAGSystem

/-- cosineSimilarity of src/lib/rag-system.ts (lines 281-295): mismatched
lengths score 0, but unlike the redis-vector copy there is no zero-norm
guard, so the final division can produce NaN. -/
def cosineSimilarity (sqrt : ℚ → ℚ) (a b : List ℚ) : JsNum :=
  if a.length ≠ b.length then .val 0
  else jsDiv (dotProduct a b) (sqrt (normSq a) * sqrt (normSq b))

end RAGSystem

lemma normSq_nonneg (a : List ℚ) : 0 ≤ normSq a := by
  induction a with
  | nil => simp [normSq]
  | cons x l ih =>
    have hx : 0 ≤ x * x := mul_self_nonneg x
    simp only [normSq, List.map_cons, List.sum_cons] at ih ⊢
    exact add_nonneg hx ih

lemma normSq_eq_zero_iff (a : List ℚ) : normSq a = 0 ↔ ∀ x ∈ a, x = 0 := by
  induction a with
  | nil => simp [normSq]
  | cons x l ih =>
    simp only [normSq, List.map_cons, List.sum_cons, List.mem_cons] at ih ⊢
    constructor
    · intro h
      have hx : 0 ≤ x * x := mul_self_nonneg x
      have hl : 0 ≤ normSq l := normSq_nonneg l
      simp only [normSq] at hl
      have hxx : x * x = 0 := by linarith [hl, hx]
      have hx0 : x = 0 := by
        rcases mul_self_eq_zero.mp hxx with h0
        exact h0
      refine fun y hy => ?_
      rcases hy with rfl | hy
      · exact hx0
      · exact (ih.mp (by linarith)) y hy
    · intro h
      have hx0 : x = 0 := h x (Or.inl rfl)
      have hl : (l.map (fun x => x * x)).sum = 0 := ih.mpr (fun y hy => h y (Or.inr hy))
      simp [hx0, hl]

lemma dotProduct_eq_zero_left (a b : List ℚ) (h : ∀ x ∈ a, x = 0) :
    dotProduct a b = 0 := by
  induction a generalizing b with
  | nil => simp [dotProduct]
  | cons x l ih =>
    cases b with
    | nil => simp [dotProduct]
    | cons y m =>
      have hx : x = 0 := h x (List.mem_cons_self x l)
      have := ih m (fun z hz => h z (List.mem_cons_of_mem x hz))
      simp only [dotProduct, List.zipWith_cons_cons, List.sum_cons] at this ⊢
      simp [hx, this]

lemma dotProduct_eq_zero_right (a b : List ℚ) (h : ∀ x ∈ b, x = 0) :
    dotProduct a b = 0 := by
  induction a generalizing b with
  | nil => simp [dotProduct]
  | cons x l ih =>
    cases b with
    | nil => simp [dotProduct]
    | cons y m =>
      have hy : y = 0 := h y (List.mem_cons_self y m)
      have := ih m (fun z hz => h z (List.mem_cons_of_mem y hz))
      simp only [dotProduct, List.zipWith_cons_cons, List.sum_cons] at this ⊢
      simp [hy, this]

/-- C4: searchSimilar returns at most limit results, sorted in
non-increasing order of similarity score, and every returned record scored
at least the threshold. -/
theorem searchSimilar_sorted_bounded (sqrt : ℚ → ℚ)
    (stored : List RedisVectorStore.StoredChunk) (queryEmbedding : List ℚ)
    (limit : ℕ) (threshold : ℚ) :
    (RedisVectorStore.searchSimilar sqrt stored queryEmbedding limit threshold).length ≤ limit ∧
    (RedisVectorStore.searchSimilar sqrt stored queryEmbedding limit threshold).Pairwise
      (fun x y => y.score ≤ x.score) ∧
    ∀ r ∈ RedisVectorStore.searchSimilar sqrt stored queryEmbedding limit threshold,
      threshold ≤ r.score := by
  unfold RedisVectorStore.searchSimilar
  set f := fun (c : RedisVectorStore.StoredChunk) =>
    match c.embedding with
    | none => none
    | some e =>
      let similarity := RedisVectorStore.cosineSimilarity sqrt queryEmbedding e
      if threshold ≤ similarity then
        some { id := c.id, documentId := c.documentId, content := c.content,
               score := similarity : RedisVectorStore.SearchResult }
      else none with hf
  refine ⟨List.length_take_le _ _, ?_, ?_⟩
  · have hsorted := List.sorted_insertionSort RedisVectorStore.scoreGE (stored.filterMap f)
    exact List.Pairwise.sublist (List.take_sublist limit
      (List.insertionSort RedisVectorStore.scoreGE (stored.filterMap f))) hsorted
  · intro r hr
    have hr2 : r ∈ List.insertionSort RedisVectorStore.scoreGE (stored.filterMap f) :=
      (List.take_sublist _ _).subset hr
    have hr3 : r ∈ stored.filterMap f :=
      (List.perm_insertionSort RedisVectorStore.scoreGE (stored.filterMap f)).mem_iff.mp hr2
    rcases List.mem_filterMap.mp hr3 with ⟨c, _, hc⟩
    simp only [hf] at hc
    rcases hemb : c.embedding with _ | e
    · rw [hemb] at hc; simp at hc
    · rw [hemb] at hc
      simp only at hc
      by_cases ht : threshold ≤ RedisVectorStore.cosineSimilarity sqrt queryEmbedding e
      · rw [if_pos ht] at hc
        cases hc
        exact ht
      · rw [if_neg ht] at hc
        cases hc

/-- C5: on equal-length vectors with a zero norm the redis-vector
cosineSimilarity returns 0 as specified, but the rag-system copy, which has
no zero-norm guard, divides 0 by 0 and produces NaN. -/
theorem cosineSimilarity_zero_norm (sqrt : ℚ → ℚ) (hsqrt : sqrt 0 = 0)
    (a b : List ℚ) (hlen : a.length = b.length)
    (hz : normSq a = 0 ∨ normSq b = 0) :
    RedisVectorStore.cosineSimilarity sqrt a b = 0 ∧
    RAGSystem.cosineSimilarity sqrt a b = JsNum.nan := by
  constructor
  · unfold RedisVectorStore.cosineSimilarity
    rw [if_neg (by simp [hlen])]
    simp only [hz, if_pos]
  · unfold RAGSystem.cosineSimilarity
    rw [if_neg (by simp [hlen])]
    have hdot : dotProduct a b = 0 := by
      rcases hz with hz | hz
      · exact dotProduct_eq_zero_left a b ((normSq_eq_zero_iff a).mp hz)
      · exact dotProduct_eq_zero_right a b ((normSq_eq_zero_iff b).mp hz)
    have hden : sqrt (normSq a) * sqrt (normSq b) = 0 := by
      rcases hz with hz | hz
      · rw [hz, hsqrt, zero_mul]
      · rw [hz, hsqrt, mul_zero]
    rw [hdot, hden]
    simp [jsDiv]

/-- Witness for C5 at the concrete failing input a = b = the one-component
zero vector, with the square-root function fixed to a map sending 0 to 0. -/
theorem cosineSimilarity_zero_norm_witness :
    RedisVectorStore.cosineSimilarity (fun _ => (0 : ℚ)) [0] [0] = 0 ∧
    RAGSystem.cosineSimilarity (fun _ => (0 : ℚ)) [0] [0] = JsNum.nan :=
  cosineSimilarity_zero_norm (fun _ => (0 : ℚ)) rfl [0] [0] rfl
    (Or.inl (by simp [normSq]))

/-- C6: on vectors of differing lengths both cosineSimilarity
implementations return 0 without any fault. -/
theorem cosineSimilarity_length_mismatch (sqrt : ℚ → ℚ) (a b : List ℚ)
    (h : a.length ≠ b.length) :
    RedisVectorStore.cosineSimilarity sqrt a b = 0 ∧
    RAGSystem.cosineSimilarity sqrt a b = JsNum.val 0 := by
  constructor
  · unfold RedisVectorStore.cosineSimilarity
    rw [if_pos h]
  · unfold RAGSystem.cosineSimilarity
    rw [if_pos h]

/-- Witness for C6 at the concrete mismatched pair [1] and []. -/
theorem cosineSimilarity_length_mismatch_witness :
    RedisVectorStore.cosineSimilarity (fun q => q) [1] [] = 0 ∧
    RAGSystem.cosineSimilarity (fun q => q) [1] [] = JsNum.val 0 :=
  cosineSimilarity_length_mismatch (fun q => q) [1] [] (by simp)

namespace ChatRoute

/-- The configuration fields the chat route of src/unnamed/part_001
(lines 264-270) reads. -/
structure Config where
  openaiKey : String
  langcacheUrl : String
  cacheId : String
  serviceKey : String
  shadowMode : Bool
deriving DecidableEq, Repr

/-- One entry of the data array of a LangCache search response; every field
can be absent in the JSON. -/
structure CacheEntry where
  prompt : Option String
  response : Option String
  similarity : Option ℚ
deriving DecidableEq, Repr

/-- Outcome of the fetch to the LangCache search endpoint as searchLangCache
observes it: a thrown connection or parse error, or an HTTP response with
its ok flag and the entries of the parsed data array (an absent or empty
data array is the empty list). -/
inductive Backend where
  | failure : Backend
  | httpResponse : Bool → List CacheEntry → Backend
deriving DecidableEq, Repr

/-- JavaScript string truthiness: undefined and the empty string are falsy. -/
def jsTruthy (o : Option String) : Option String :=
  match o with
  | none => none
  | some s => if s = "" then none else some s

/-- Result value of searchLangCache: the miss object of the source is hit
false, a hit carries response, similarity and cachedQuery. -/
inductive SearchOutcome where
  | miss : SearchOutcome
  | hit : String → ℚ → String → SearchOutcome
deriving DecidableEq, Repr

/-- Whether the outcome is a hit (the hit field of the returned object). -/
def SearchOutcome.isHit : SearchOutcome → Bool
  | .miss => false
  | .hit _ _ _ => true

/-- The similarity field of the returned object, absent on a miss. -/
def SearchOutcome.simOpt : SearchOutcome → Option ℚ
  | .miss => none
  | .hit _ s _ => some s

/-- The cachedQuery field of the returned object, absent on a miss. -/
def SearchOutcome.cqOpt : SearchOutcome → Option String
  | .miss => none
  | .hit _ _ p => some p

/-- The response field of the returned object, absent on a miss. -/
def SearchOutcome.respOpt : SearchOutcome → Option String
  | .miss => none
  | .hit r _ _ => some r

/-- searchLangCache of src/unnamed/part_001 (lines 274-312): missing
configuration fields, a thrown fetch error, a non-ok HTTP status, an empty
data array and a first entry without a truthy response all return the miss
object; a hit is returned only for a first entry with a truthy response,
with the similarity defaulted to 0 and the prompt defaulted to the query. -/
def searchLangCache (cfg : Config) (backend : Backend) (query : String) : SearchOutcome :=
  if cfg.langcacheUrl = "" ∨ cfg.cacheId = "" ∨ cfg.serviceKey = "" then .miss
  else
    match backend with
    | .failure => .miss
    | .httpResponse ok data =>
      if ok then
        match data with
        | [] => .miss
        | e :: _ =>
          match jsTruthy e.response with
          | none => .miss
          | some r => .hit r (e.similarity.getD 0) ((jsTruthy e.prompt).getD query)
      else .miss

/-- The value callOpenAI resolves with on success (part_001, lines 342-369). -/
structure OpenAIResult where
  content : String
  latency : ℕ
  tokensUsed : ℕ
deriving DecidableEq, Repr

/-- The JSON body returned by the chat POST handler; optional fields are
present only on the paths that set them. -/
structure ChatResponse where
  content : String
  cached : Bool
  shadowMode : Option Bool
  cacheHit : Option Bool
  similarity : Option ℚ
  cachedQuery : Option String
  userQuery : String
  latency : ℕ
  tokensUsed : Option ℕ
  tokensSaved : Option ℕ
deriving DecidableEq, Repr

/-- Math.ceil (n / 4) for a natural n, the 4-characters-per-token estimate. -/
def ceilDiv4 (n : ℕ) : ℕ := (n + 3) / 4

/-- POST handler of the chat route in src/unnamed/part_001 (lines 371-455),
as a function of the request data and of the outcomes of the two external
calls: the LangCache search backend outcome and the result of callOpenAI
(an Except, since callOpenAI throws on a non-ok status, which the handler
turns into an error response). The second component records whether
callOpenAI was invoked on the taken path. The fire-and-forget
storeInLangCache call never contributes to the returned response. -/
def POST (message : String) (cfg : Config) (backend : Backend)
    (gen : Except String OpenAIResult) (cacheLatency : ℕ) :
    Except String ChatResponse × Bool :=
  if message = "" then (.error "Missing message or config", false)
  else if cfg.shadowMode then
    match gen with
    | .error e => (.error e, true)
    | .ok g =>
      let cacheResult := searchLangCache cfg backend message
      (.ok { content := g.content, cached := false, shadowMode := some true,
             cacheHit := some cacheResult.isHit,
             similarity := cacheResult.simOpt,
             cachedQuery := cacheResult.cqOpt,
             userQuery := message, latency := g.latency,
             tokensUsed := some g.tokensUsed,
             tokensSaved := some (if cacheResult.isHit then g.tokensUsed else 0) }, true)
  else
    match searchLangCache cfg backend message with
    | .hit r s p =>
      (.ok { content := r, cached := true, shadowMode := none, cacheHit := none,
             similarity := some s, cachedQuery := some p, userQuery := message,
             latency := cacheLatency, tokensUsed := none,
             tokensSaved := some (ceilDiv4 message.length + ceilDiv4 r.length) }, false)
    | .miss =>
      match gen with
      | .error e => (.error e, true)
      | .ok g =>
        (.ok { content := g.content, cached := false, shadowMode := none, cacheHit := none,
               similarity := none, cachedQuery := none, userQuery := message,
               latency := g.latency, tokensUsed := some g.tokensUsed,
               tokensSaved := none }, true)

end ChatRoute


lemma jsTruthy_eq_some {o : Option String} {r : String} :
    ChatRoute.jsTruthy o = some r ↔ o = some r ∧ r ≠ "" := by
  cases o with
  | none => simp [ChatRoute.jsTruthy]
  | some s =>
    by_cases hs : s = ""
    · subst hs
      simp only [ChatRoute.jsTruthy, if_pos rfl]
      constructor
      · intro h; cases h
      · rintro ⟨h, hne⟩
        exact absurd (Option.some.inj h).symm hne
    · simp only [ChatRoute.jsTruthy, if_neg hs]
      constructor
      · intro h
        cases Option.some.inj h
        exact ⟨rfl, hs⟩
      · rintro ⟨h, _⟩
        cases Option.some.inj h
        rfl

/-- C3: searchLangCache never surfaces an error: incomplete configuration, a
thrown fetch failure, a non-ok HTTP status, an empty data array and a first
entry without a truthy response all produce the miss result, and a hit is
produced only from an ok response whose first entry carries a truthy cached
response. -/
theorem searchLangCache_fail_open (cfg : ChatRoute.Config) (b : ChatRoute.Backend)
    (q : String) (es : List ChatRoute.CacheEntry) (e : ChatRoute.CacheEntry) :
    ChatRoute.searchLangCache { cfg with langcacheUrl := "" } b q = .miss ∧
    ChatRoute.searchLangCache { cfg with cacheId := "" } b q = .miss ∧
    ChatRoute.searchLangCache { cfg with serviceKey := "" } b q = .miss ∧
    ChatRoute.searchLangCache cfg .failure q = .miss ∧
    ChatRoute.searchLangCache cfg (.httpResponse false es) q = .miss ∧
    ChatRoute.searchLangCache cfg (.httpResponse true []) q = .miss ∧
    ChatRoute.searchLangCache cfg
      (.httpResponse true ({ e with response := none } :: es)) q = .miss ∧
    ChatRoute.searchLangCache cfg
      (.httpResponse true ({ e with response := some "" } :: es)) q = .miss ∧
    (∀ r s p, ChatRoute.searchLangCache cfg b q = .hit r s p →
      ∃ d ds, b = .httpResponse true (d :: ds) ∧ d.response = some r ∧ r ≠ "") := by
  refine ⟨?_, ?_, ?_, ?_, ?_, ?_, ?_, ?_, ?_⟩
  · simp [ChatRoute.searchLangCache]
  · simp [ChatRoute.searchLangCache]
  · simp [ChatRoute.searchLangCache]
  · by_cases hc : cfg.langcacheUrl = "" ∨ cfg.cacheId = "" ∨ cfg.serviceKey = "" <;>
      simp [ChatRoute.searchLangCache, hc]
  · by_cases hc : cfg.langcacheUrl = "" ∨ cfg.cacheId = "" ∨ cfg.serviceKey = "" <;>
      simp [ChatRoute.searchLangCache, hc]
  · by_cases hc : cfg.langcacheUrl = "" ∨ cfg.cacheId = "" ∨ cfg.serviceKey = "" <;>
      simp [ChatRoute.searchLangCache, hc]
  · by_cases hc : cfg.langcacheUrl = "" ∨ cfg.cacheId = "" ∨ cfg.serviceKey = "" <;>
      simp [ChatRoute.searchLangCache, hc, ChatRoute.jsTruthy]
  · by_cases hc : cfg.langcacheUrl = "" ∨ cfg.cacheId = "" ∨ cfg.serviceKey = "" <;>
      simp [ChatRoute.searchLangCache, hc, ChatRoute.jsTruthy]
  · intro r s p hhit
    unfold ChatRoute.searchLangCache at hhit
    by_cases hc : cfg.langcacheUrl = "" ∨ cfg.cacheId = "" ∨ cfg.serviceKey = ""
    · rw [if_pos hc] at hhit
      cases hhit
    · rw [if_neg hc] at hhit
      cases b with
      | failure => cases hhit
      | httpResponse ok data =>
        cases ok with
        | false => simp at hhit
        | true =>
          cases data with
          | nil => simp at hhit
          | cons d ds =>
            simp only at hhit
            rcases htr : ChatRoute.jsTruthy d.response with _ | r2
            · rw [htr] at hhit; cases hhit
            · rw [htr] at hhit
              cases hhit
              rcases jsTruthy_eq_some.mp htr with ⟨hresp, hne⟩
              exact ⟨d, ds, rfl, hresp, hne⟩

/-- A complete configuration used by concrete witnesses. -/
def sampleConfig : ChatRoute.Config :=
  { openaiKey := "k", langcacheUrl := "u", cacheId := "i", serviceKey := "s",
    shadowMode := false }

/-- A cache entry with a truthy response, used by concrete witnesses. -/
def sampleEntry : ChatRoute.CacheEntry :=
  { prompt := some "P", response := some "R", similarity := some (9/10) }

/-- Witness for C3 exercising the hit characterisation at a concrete backend
response holding one entry with a truthy cached answer. -/
theorem searchLangCache_fail_open_witness :
    ∃ d ds, ChatRoute.Backend.httpResponse true [sampleEntry] =
        .httpResponse true (d :: ds) ∧ d.response = some "R" ∧ "R" ≠ "" :=
  (searchLangCache_fail_open sampleConfig (.httpResponse true [sampleEntry])
    "Q" [] sampleEntry).2.2.2.2.2.2.2.2 "R" (9/10) "P" rfl

/-- C1: in shadow mode, whenever callOpenAI succeeds, the served content is
the generation output with cached false, the cache outcome appears only in
the cacheHit, similarity and cachedQuery fields, and tokensSaved is the real
generation token usage on a cache hit and 0 on a miss. -/
theorem shadow_mode_serves_generation (message : String) (hm : message ≠ "")
    (cfg : ChatRoute.Config) (backend : ChatRoute.Backend)
    (c : String) (lat t latc : ℕ) :
    ChatRoute.POST message { cfg with shadowMode := true } backend
        (.ok { content := c, latency := lat, tokensUsed := t }) latc =
      (Except.ok {
        content := c, cached := false, shadowMode := some true,
        cacheHit := some (ChatRoute.searchLangCache { cfg with shadowMode := true }
          backend message).isHit,
        similarity := (ChatRoute.searchLangCache { cfg with shadowMode := true }
          backend message).simOpt,
        cachedQuery := (ChatRoute.searchLangCache { cfg with shadowMode := true }
          backend message).cqOpt,
        userQuery := message, latency := lat, tokensUsed := some t,
        tokensSaved := some (if (ChatRoute.searchLangCache { cfg with shadowMode := true }
          backend message).isHit then t else 0) }, true) := by
  unfold ChatRoute.POST
  rw [if_neg hm]
  simp

/-- Witness for C1 at a concrete query, configuration, backend miss and
generation result. -/
theorem shadow_mode_serves_generation_witness :
    ChatRoute.POST "Q" { sampleConfig with shadowMode := true } .failure
        (.ok { content := "G", latency := 5, tokensUsed := 7 }) 3 =
      (Except.ok {
        content := "G", cached := false, shadowMode := some true,
        cacheHit := some (ChatRoute.searchLangCache
          { sampleConfig with shadowMode := true } .failure "Q").isHit,
        similarity := (ChatRoute.searchLangCache
          { sampleConfig with shadowMode := true } .failure "Q").simOpt,
        cachedQuery := (ChatRoute.searchLangCache
          { sampleConfig with shadowMode := true } .failure "Q").cqOpt,
        userQuery := "Q", latency := 5, tokensUsed := some 7,
        tokensSaved := some (if (ChatRoute.searchLangCache
          { sampleConfig with shadowMode := true } .failure "Q").isHit
          then 7 else 0) }, true) :=
  shadow_mode_serves_generation "Q" (by decide) sampleConfig .failure "G" 5 7 3

/-- C2: in normal mode, on a cache hit the handler serves the cached
response with cached true, the similarity score and the matched cached
prompt, sets tokensSaved to the 4-characters-per-token estimate of the query
plus the cached response, and never invokes the generation service: the
result does not depend on the generation oracle and the invocation flag is
false. -/
theorem normal_mode_cache_hit (message r p : String) (q : ℚ) (hm : message ≠ "")
    (cfg : ChatRoute.Config) (backend : ChatRoute.Backend)
    (gen : Except String ChatRoute.OpenAIResult) (latc : ℕ)
    (hhit : ChatRoute.searchLangCache { cfg with shadowMode := false } backend message =
      .hit r q p) :
    ChatRoute.POST message { cfg with shadowMode := false } backend gen latc =
      (Except.ok {
        content := r, cached := true, shadowMode := none, cacheHit := none,
        similarity := some q, cachedQuery := some p, userQuery := message,
        latency := latc, tokensUsed := none,
        tokensSaved := some (ChatRoute.ceilDiv4 message.length +
          ChatRoute.ceilDiv4 r.length) }, false) := by
  unfold ChatRoute.POST
  rw [if_neg hm]
  simp [hhit]

/-- Witness for C2 at a concrete hit: the backend returns one entry with
response R and prompt P, and the handler serves it without consulting the
generation oracle (instantiated here with a failing one). -/
theorem normal_mode_cache_hit_witness :
    ChatRoute.POST "Q" { sampleConfig with shadowMode := false }
        (.httpResponse true [sampleEntry]) (.error "down") 3 =
      (Except.ok {
        content := "R", cached := true, shadowMode := none, cacheHit := none,
        similarity := some (9/10), cachedQuery := some "P", userQuery := "Q",
        latency := 3, tokensUsed := none,
        tokensSaved := some (ChatRoute.ceilDiv4 "Q".length +
          ChatRoute.ceilDiv4 "R".length) }, false) :=
  normal_mode_cache_hit "Q" "R" "P" (9/10) (by decide) sampleConfig
    (.httpResponse true [sampleEntry]) (.error "down") 3 rfl

namespace RAGSystem

/-- Terminal sentence punctuation, the character class of the splitting
regular expressions in chunkDocument. -/
def isTermCh (c : Char) : Bool := c = '.' || c = '!' || c = '?'

/-- Single pass of the global regular expression matching one or more
non-terminal characters followed by one or more terminal characters. The
arguments ns and ts hold, reversed, the non-terminal and terminal characters
of the match being built; text after the last terminal run is not part of
any match, exactly as the regular expression leaves it unmatched. -/
def sentencesScan : List Char → List Char → List Char → List (List Char)
  | [], _, [] => []
  | [], ns, t :: ts => [ns.reverse ++ (t :: ts).reverse]
  | c :: cs, ns, ts =>
    if isTermCh c then
      match ns with
      | [] => sentencesScan cs [] ts
      | _ :: _ => sentencesScan cs ns (c :: ts)
    else
      match ts with
      | [] => sentencesScan cs (c :: ns) []
      | _ :: _ => (ns.reverse ++ ts.reverse) :: sentencesScan cs [c] []

/-- The sentence list of chunkDocument (rag-system.ts line 80): the matches
of the terminal-punctuation regular expression, or the whole text as the
single sentence when there is no match. -/
def sentencesOf (content : List Char) : List (List Char) :=
  match sentencesScan content [] [] with
  | [] => [content]
  | u => u

/-- Removal of trailing whitespace, the tail half of String.trim. -/
def trimR : List Char → List Char
  | [] => []
  | c :: cs =>
    match trimR cs with
    | [] => if c.isWhitespace then [] else [c]
    | d :: ds => c :: d :: ds

/-- JavaScript String.trim on a character list. -/
def trimL (l : List Char) : List Char :=
  trimR (l.dropWhile Char.isWhitespace)

/-- JavaScript String.split on runs of whitespace: a leading or trailing run
contributes an empty piece. The state is the piece being accumulated
(reversed), or nothing right after a separator run. -/
def splitWSAux : List Char → Option (List Char) → List (List Char)
  | [], some acc => [acc.reverse]
  | [], none => [[]]
  | c :: cs, some acc =>
    if c.isWhitespace then acc.reverse :: splitWSAux cs none
    else splitWSAux cs (some (c :: acc))
  | c :: cs, none =>
    if c.isWhitespace then splitWSAux cs none
    else splitWSAux cs (some [c])

/-- currentChunk.split on whitespace as used for words and wordCount. -/
def jsSplitWS (l : List Char) : List (List Char) :=
  splitWSAux l (some [])

/-- words.slice(-k) including the JavaScript quirk that k = 0 gives
slice(-0) = slice(0), the whole array, while a positive k gives the last
min(k, length) elements. -/
def jsSliceNeg (ws : List (List Char)) (k : ℕ) : List (List Char) :=
  if k = 0 then ws else ws.drop (ws.length - k)

/-- Count of matches of the global regular expression matching runs of
terminal punctuation; the flag records being inside such a run. -/
def termRunsAux : List Char → Bool → ℕ
  | [], _ => 0
  | c :: cs, inRun =>
    if isTermCh c then (if inRun then 0 else 1) + termRunsAux cs true
    else termRunsAux cs false

/-- Number of terminal-punctuation runs of a text. -/
def termRuns (l : List Char) : ℕ := termRunsAux l false

/-- Positional metadata of a chunk. -/
structure ChunkMetadata where
  startChar : ℕ
  endChar : ℕ
  wordCount : ℕ
  sentenceCount : ℕ
deriving DecidableEq, Repr

/-- A document chunk as built by chunkDocument (embedding still empty). -/
structure DocumentChunk where
  id : String
  documentId : String
  content : List Char
  chunkIndex : ℕ
  embedding : List ℚ
  metadata : ChunkMetadata
deriving DecidableEq, Repr

/-- The two configuration fields chunkDocument reads from this.config. -/
structure RAGConfig where
  chunkSize : ℕ
  chunkOverlap : ℕ
deriving DecidableEq, Repr

/-- The chunk pushed by chunkDocument for the accumulated text cur at index
idx and offset start: trimmed content, endChar measured on the untrimmed
text, wordCount from the whitespace split, and sentenceCount from the
terminal-run count, defaulted to 1 when there is none. -/
def mkChunk (documentId : String) (cur : List Char) (idx start : ℕ) : DocumentChunk :=
  { id := documentId ++ "_chunk_" ++ toString idx
    documentId := documentId
    content := trimL cur
    chunkIndex := idx
    embedding := []
    metadata :=
      { startChar := start
        endChar := start + cur.length
        wordCount := (jsSplitWS cur).length
        sentenceCount := if termRuns cur = 0 then 1 else termRuns cur } }

/-- The overlap seed overlapWords.join of the chunk-close branch: the
trailing chunkOverlap/4 words of the closed buffer re-joined with spaces
(all of its words when chunkOverlap/4 is 0, by the slice(-0) quirk). -/
def overlapJoin (cfg : RAGConfig) (cur : List Char) : List Char :=
  List.intercalate [' '] (jsSliceNeg (jsSplitWS cur) (cfg.chunkOverlap / 4))

/-- The reseeded buffer after closing a chunk: the overlap join, one space,
then the sentence that triggered the overflow. -/
def reseed (cfg : RAGConfig) (cur sentence : List Char) : List Char :=
  overlapJoin cfg cur ++ [' '] ++ sentence

/-- The sentence loop of chunkDocument (rag-system.ts lines 86-135): empty
trimmed sentences are skipped; when appending the next sentence pushes the
4-characters-per-token estimate over chunkSize and the buffer is non-empty,
the buffer is closed as a chunk and reseeded with the trailing
chunkOverlap/4 words (the slice(-0) quirk reseeds with every word when
chunkOverlap < 4) followed by the sentence; the final non-blank buffer is
flushed as the last chunk. -/
def chunkLoop (cfg : RAGConfig) (documentId : String) :
    List (List Char) → List Char → ℕ → ℕ → List DocumentChunk
  | [], cur, idx, start =>
    if 0 < (trimL cur).length then [mkChunk documentId cur idx start] else []
  | s :: rest, cur, idx, start =>
    let sentence := trimL s
    if sentence.isEmpty then chunkLoop cfg documentId rest cur idx start
    else
      let potential := cur ++ (if cur.isEmpty then [] else [' ']) ++ sentence
      if 4 * cfg.chunkSize < potential.length ∧ cur ≠ [] then
        mkChunk documentId cur idx start ::
          chunkLoop cfg documentId rest (reseed cfg cur sentence) (idx + 1)
            (start + ((reseed cfg cur sentence).length - (overlapJoin cfg cur).length))
      else chunkLoop cfg documentId rest potential idx start

/-- chunkDocument of src/lib/rag-system.ts (lines 75-138). -/
def chunkDocument (cfg : RAGConfig) (content : List Char) (documentId : String) :
    List DocumentChunk :=
  chunkLoop cfg documentId (sentencesOf content) [] 0 0

/-- The text the buffer would hold after consuming all remaining sentences
if no chunk boundary were ever crossed: the else branch of the loop iterated
over the whole sentence list. -/
def joinAux : List (List Char) → List Char → List Char
  | [], cur => cur
  | s :: rest, cur =>
    let sentence := trimL s
    if sentence.isEmpty then joinAux rest cur
    else joinAux rest (cur ++ (if cur.isEmpty then [] else [' ']) ++ sentence)

/-- The whole document re-joined from its trimmed sentences with single
spaces, the text whose length actually drives the chunk-size estimate. -/
def joinedSentences (content : List Char) : List Char :=
  joinAux (sentencesOf content) []

end RAGSystem

lemma joinAux_length_le (ss : List (List Char)) (cur : List Char) :
    cur.length ≤ (RAGSystem.joinAux ss cur).length := by
  induction ss generalizing cur with
  | nil => simp [RAGSystem.joinAux]
  | cons s rest ih =>
    simp only [RAGSystem.joinAux]
    by_cases hs : (RAGSystem.trimL s).isEmpty
    · simpa [hs] using ih cur
    · simp only [hs, if_neg (by simp [hs] : ¬ (RAGSystem.trimL s).isEmpty = true)]
      refine le_trans ?_ (ih _)
      simp

lemma chunkLoop_no_split (cfg : RAGSystem.RAGConfig) (docId : String)
    (ss : List (List Char)) (cur : List Char) (idx start : ℕ)
    (h : (RAGSystem.joinAux ss cur).length ≤ 4 * cfg.chunkSize) :
    RAGSystem.chunkLoop cfg docId ss cur idx start =
      if 0 < (RAGSystem.trimL (RAGSystem.joinAux ss cur)).length
      then [RAGSystem.mkChunk docId (RAGSystem.joinAux ss cur) idx start]
      else [] := by
  induction ss generalizing cur idx start with
  | nil => simp [RAGSystem.chunkLoop, RAGSystem.joinAux]
  | cons s rest ih =>
    by_cases hs : (RAGSystem.trimL s).isEmpty
    · rw [show RAGSystem.joinAux (s :: rest) cur = RAGSystem.joinAux rest cur by
          simp [RAGSystem.joinAux, hs]] at h ⊢
      rw [show RAGSystem.chunkLoop cfg docId (s :: rest) cur idx start =
          RAGSystem.chunkLoop cfg docId rest cur idx start by
          simp [RAGSystem.chunkLoop, hs]]
      exact ih cur idx start h
    · have hj : RAGSystem.joinAux (s :: rest) cur =
          RAGSystem.joinAux rest (cur ++ (if cur.isEmpty then [] else [' ']) ++
            RAGSystem.trimL s) := by
        simp [RAGSystem.joinAux, hs]
      rw [hj] at h ⊢
      have hple : (cur ++ (if cur.isEmpty then [] else [' ']) ++
          RAGSystem.trimL s).length ≤ 4 * cfg.chunkSize :=
        le_trans (joinAux_length_le rest _) h
      have hstep : RAGSystem.chunkLoop cfg docId (s :: rest) cur idx start =
          RAGSystem.chunkLoop cfg docId rest
            (cur ++ (if cur.isEmpty then [] else [' ']) ++ RAGSystem.trimL s) idx start := by
        simp only [RAGSystem.chunkLoop]
        rw [if_neg (by simp [hs]), if_neg (by rintro ⟨hlt, -⟩; omega)]
      rw [hstep]
      exact ih _ idx start h

lemma sentencesScan_no_term (l : List Char) (hterm : ∀ c ∈ l, RAGSystem.isTermCh c = false) :
    ∀ ns, RAGSystem.sentencesScan l ns [] = [] := by
  induction l with
  | nil => intro ns; rfl
  | cons c cs ih =>
    intro ns
    have hc : RAGSystem.isTermCh c = false := hterm c (List.mem_cons_self c cs)
    simp only [RAGSystem.sentencesScan, hc, Bool.false_eq_true, if_neg]
    exact ih (fun d hd => hterm d (List.mem_cons_of_mem c hd)) (c :: ns)

/-- C7 amended: a document without terminal punctuation is one single
sentence and yields at most one chunk; a document yields exactly one chunk
when its sentences, trimmed and re-joined with single spaces, are non-blank
and their estimated token count (length / 4) does not exceed chunkSize. The
original bound on the raw document length is refuted by
chunkDocument_small_doc_counterexample: re-joining trimmed sentences can be
longer than the document, and a blank document yields no chunk at all. -/
theorem chunkDocument_single_chunk (cfg : RAGSystem.RAGConfig) (docId : String)
    (content : List Char) :
    ((∀ c ∈ content, RAGSystem.isTermCh c = false) →
      RAGSystem.sentencesOf content = [content]) ∧
    ((∀ c ∈ content, RAGSystem.isTermCh c = false) →
      (RAGSystem.chunkDocument cfg content docId).length ≤ 1) ∧
    ((RAGSystem.joinedSentences content).length ≤ 4 * cfg.chunkSize →
      RAGSystem.trimL (RAGSystem.joinedSentences content) ≠ [] →
      (RAGSystem.chunkDocument cfg content docId).length = 1) := by
  have hone : ∀ hterm : ∀ c ∈ content, RAGSystem.isTermCh c = false,
      RAGSystem.sentencesOf content = [content] := by
    intro hterm
    unfold RAGSystem.sentencesOf
    rw [sentencesScan_no_term content hterm []]
  refine ⟨hone, ?_, ?_⟩
  · intro hterm
    unfold RAGSystem.chunkDocument
    rw [hone hterm]
    by_cases hs : (RAGSystem.trimL content).isEmpty
    · simp only [RAGSystem.chunkLoop, hs, if_true]
      split <;> simp
    · simp only [RAGSystem.chunkLoop, hs, Bool.false_eq_true, if_neg, if_false]
      rw [if_neg (by rintro ⟨-, hne⟩; exact hne rfl)]
      split <;> split <;> simp
  · intro hlen hne
    unfold RAGSystem.chunkDocument
    rw [chunkLoop_no_split cfg docId (RAGSystem.sentencesOf content) [] 0 0 hlen]
    rw [if_pos (by simpa [List.length_pos] using hne)]
    rfl

/-- Counterexample for C7 as stated: the document A.B. has length 4, so its
estimated token count 4 / 4 = 1 does not exceed a chunkSize of 1, yet
chunking yields two chunks (the trimmed sentences re-joined with a space
make the 5-character text A. B., whose estimate exceeds 1); and a document
of one blank character, with no terminal punctuation and estimate below any
chunkSize of at least 1, yields zero chunks, not one. -/
theorem chunkDocument_small_doc_counterexample :
    (String.toList "A.B.").length ≤ 4 * 1 ∧
    (RAGSystem.chunkDocument { chunkSize := 1, chunkOverlap := 4 }
      (String.toList "A.B.") "doc").length = 2 ∧
    (∀ c ∈ String.toList " ", RAGSystem.isTermCh c = false) ∧
    (String.toList " ").length ≤ 4 * 1 ∧
    RAGSystem.chunkDocument { chunkSize := 1, chunkOverlap := 4 }
      (String.toList " ") "doc" = [] := by
  refine ⟨by decide, by decide, by decide, by decide, by decide⟩

/-- Witness for C7 amended at the two-character document hi with chunkSize
1: no terminal punctuation, one sentence, and the re-joined text has length
2 ≤ 4, giving exactly one chunk. -/
theorem chunkDocument_single_chunk_witness :
    RAGSystem.sentencesOf (String.toList "hi") = [String.toList "hi"] ∧
    (RAGSystem.chunkDocument { chunkSize := 1, chunkOverlap := 4 }
      (String.toList "hi") "doc").length ≤ 1 ∧
    (RAGSystem.chunkDocument { chunkSize := 1, chunkOverlap := 4 }
      (String.toList "hi") "doc").length = 1 :=
  ⟨(chunkDocument_single_chunk { chunkSize := 1, chunkOverlap := 4 } "doc"
      (String.toList "hi")).1 (by decide),
   (chunkDocument_single_chunk { chunkSize := 1, chunkOverlap := 4 } "doc"
      (String.toList "hi")).2.1 (by decide),
   (chunkDocument_single_chunk { chunkSize := 1, chunkOverlap := 4 } "doc"
      (String.toList "hi")).2.2 (by decide) (by decide)⟩

lemma chunkLoop_indices (cfg : RAGSystem.RAGConfig) (docId : String) :
    ∀ (ss : List (List Char)) (cur : List Char) (idx start : ℕ),
    (RAGSystem.chunkLoop cfg docId ss cur idx start).map (fun ch => ch.chunkIndex) =
      List.range' idx (RAGSystem.chunkLoop cfg docId ss cur idx start).length := by
  intro ss
  induction ss with
  | nil =>
    intro cur idx start
    simp only [RAGSystem.chunkLoop]
    split <;> simp [RAGSystem.mkChunk]
  | cons s rest ih =>
    intro cur idx start
    simp only [RAGSystem.chunkLoop]
    split
    · exact ih cur idx start
    · split <;> split
      all_goals
        first
        | (simp only [List.map_cons, List.length_cons, List.range'_succ]
           rw [ih]
           simp [RAGSystem.mkChunk])
        | exact ih _ idx start

lemma chunkLoop_startChar_chain (cfg : RAGSystem.RAGConfig) (docId : String) :
    ∀ (ss : List (List Char)) (cur : List Char) (idx start s0 : ℕ), s0 ≤ start →
    List.Chain' (· ≤ ·)
      (s0 :: (RAGSystem.chunkLoop cfg docId ss cur idx start).map
        (fun ch => ch.metadata.startChar)) := by
  intro ss
  induction ss with
  | nil =>
    intro cur idx start s0 h0
    simp only [RAGSystem.chunkLoop]
    split <;> simp [RAGSystem.mkChunk, h0]
  | cons s rest ih =>
    intro cur idx start s0 h0
    simp only [RAGSystem.chunkLoop]
    split
    · exact ih cur idx start s0 h0
    · split <;> split
      all_goals
        first
        | (simp only [List.map_cons, List.chain'_cons]
           refine ⟨by simpa [RAGSystem.mkChunk] using h0, ?_⟩
           have := ih (RAGSystem.reseed cfg cur (RAGSystem.trimL s)) (idx + 1)
             (start + ((RAGSystem.reseed cfg cur (RAGSystem.trimL s)).length -
               (RAGSystem.overlapJoin cfg cur).length)) start (Nat.le_add_right start _)
           simpa [RAGSystem.mkChunk] using this)
        | exact ih _ idx start s0 h0

/-- C8: the chunks of any document carry chunkIndex values 0, 1, ..., n-1
in output order with no gaps, and their startChar offsets are
non-decreasing. -/
theorem chunk_indices_gapless_offsets_monotone (cfg : RAGSystem.RAGConfig)
    (content : List Char) (docId : String) :
    (RAGSystem.chunkDocument cfg content docId).map (fun ch => ch.chunkIndex) =
      List.range (RAGSystem.chunkDocument cfg content docId).length ∧
    List.Chain' (· ≤ ·)
      ((RAGSystem.chunkDocument cfg content docId).map
        (fun ch => ch.metadata.startChar)) := by
  constructor
  · rw [List.range_eq_range']
    exact chunkLoop_indices cfg docId (RAGSystem.sentencesOf content) [] 0 0
  · exact (chunkLoop_startChar_chain cfg docId (RAGSystem.sentencesOf content)
      [] 0 0 0 le_rfl).tail

namespace RAGSystem

/-- A write issued to the key-value store by storeDocument: the document
metadata hash, one hash per persisted chunk, or one chunk-set addition. -/
inductive RedisWrite where
  | hsetDoc : String → RedisWrite
  | hsetChunk : String → RedisWrite
  | sadd : String → String → RedisWrite
deriving DecidableEq, Repr

/-- A document as passed to storeDocument: its identity and its chunks
(after embedding generation, so a chunk whose batch failed carries an empty
embedding). The remaining attributes do not influence which chunk writes
are issued. -/
structure RAGDocument where
  id : String
  name : String
  url : String
  chunks : List DocumentChunk
deriving DecidableEq, Repr

/-- storeDocument of src/lib/rag-system.ts (lines 187-216): one metadata
hash write for the document, then, for each chunk in order whose embedding
is non-empty, a chunk hash write and an addition of the chunk id to the
document's chunk set; chunks with an empty embedding are silently skipped. -/
def storeDocument (doc : RAGDocument) : List RedisWrite :=
  RedisWrite.hsetDoc ("doc:" ++ doc.id) ::
    doc.chunks.flatMap (fun chunk =>
      if 0 < chunk.embedding.length then
        [RedisWrite.hsetChunk ("chunk:" ++ chunk.id),
         RedisWrite.sadd ("doc:" ++ doc.id ++ ":chunks") chunk.id]
      else [])

/-- The keys of the chunk hash writes of a write list. -/
def chunkRecordKeys (ws : List RedisWrite) : List String :=
  ws.filterMap (fun w =>
    match w with
    | .hsetChunk k => some k
    | _ => none)

/-- The members added to chunk sets by a write list. -/
def chunkSetAdds (ws : List RedisWrite) : List String :=
  ws.filterMap (fun w =>
    match w with
    | .sadd _ m => some m
    | _ => none)

end RAGSystem

namespace ProcessRoute

/-- The chunk shape of the document processing route
(src/app/api/documents/process/route.ts lines 9-21): the embedding is
absent before generation, null after a failed generation, and the error
marker is set exactly on failure. -/
structure DocumentChunk where
  id : String
  documentId : String
  content : List Char
  chunkIndex : ℕ
  startChar : ℕ
  endChar : ℕ
  wordCount : ℕ
  embedding : Option (List ℚ)
  error : Option String
deriving DecidableEq, Repr

/-- generateEmbeddings of the processing route (lines 206-245): one
embedding call per chunk in order; a failure attaches a null embedding and
an error marker instead of aborting the other chunks. The outcome argument
gives the result of the call for each position. -/
def generateEmbeddings (chunks : List DocumentChunk)
    (outcome : ℕ → Option (List ℚ)) : List DocumentChunk :=
  chunks.mapIdx (fun i c =>
    match outcome i with
    | some e => { c with embedding := some e }
    | none => { c with embedding := none, error := some "Failed to generate embedding" })

/-- The success response of the processing route POST (lines 58-63):
chunksCount is the length of the chunk list created before embedding
generation, while the returned chunks carry the embedding outcomes. -/
structure ProcessResponse where
  success : Bool
  documentId : String
  chunksCount : ℕ
  chunks : List DocumentChunk
deriving DecidableEq, Repr

/-- The response built by the processing route once chunking succeeded. -/
def processResponse (documentId : String) (chunks : List DocumentChunk)
    (outcome : ℕ → Option (List ℚ)) : ProcessResponse :=
  { success := true
    documentId := documentId
    chunksCount := chunks.length
    chunks := generateEmbeddings chunks outcome }

end ProcessRoute

lemma chunkWrites_filterMap (docId : String) (cs : List RAGSystem.DocumentChunk) :
    RAGSystem.chunkRecordKeys (cs.flatMap (fun chunk =>
        if 0 < chunk.embedding.length then
          [RAGSystem.RedisWrite.hsetChunk ("chunk:" ++ chunk.id),
           RAGSystem.RedisWrite.sadd ("doc:" ++ docId ++ ":chunks") chunk.id]
        else [])) =
      (cs.filter (fun c => 0 < c.embedding.length)).map (fun c => "chunk:" ++ c.id) ∧
    RAGSystem.chunkSetAdds (cs.flatMap (fun chunk =>
        if 0 < chunk.embedding.length then
          [RAGSystem.RedisWrite.hsetChunk ("chunk:" ++ chunk.id),
           RAGSystem.RedisWrite.sadd ("doc:" ++ docId ++ ":chunks") chunk.id]
        else [])) =
      (cs.filter (fun c => 0 < c.embedding.length)).map (fun c => c.id) := by
  induction cs with
  | nil => simp [RAGSystem.chunkRecordKeys, RAGSystem.chunkSetAdds]
  | cons c rest ih =>
    by_cases hc : 0 < c.embedding.length
    · simp only [List.flatMap_cons, if_pos hc, RAGSystem.chunkRecordKeys,
        RAGSystem.chunkSetAdds, List.filterMap_append, List.filter_cons,
        hc, if_true, List.map_cons] at ih ⊢
      constructor
      · rw [ih.1]; rfl
      · rw [ih.2]; rfl
    · simp only [List.flatMap_cons, if_neg hc, RAGSystem.chunkRecordKeys,
        RAGSystem.chunkSetAdds, List.filterMap_append, List.filter_cons,
        hc, if_false, List.nil_append] at ih ⊢
      exact ih

/-- Metadata shared by the sample chunks below. -/
def sampleMeta : RAGSystem.ChunkMetadata :=
  { startChar := 0, endChar := 1, wordCount := 1, sentenceCount := 1 }

/-- A two-chunk document whose second chunk has an empty embedding, as after
a failed embedding batch. -/
def sampleDoc : RAGSystem.RAGDocument :=
  { id := "d", name := "n", url := "u"
    chunks :=
      [{ id := "d_chunk_0", documentId := "d", content := ['x'], chunkIndex := 0,
         embedding := [1], metadata := sampleMeta },
       { id := "d_chunk_1", documentId := "d", content := ['y'], chunkIndex := 1,
         embedding := [], metadata := sampleMeta }] }

/-- C10: storeDocument writes a chunk record and a chunk-set entry exactly
for the chunks whose embedding is non-empty, in order; the processing
endpoint reports the pre-embedding chunk count whatever the embedding
outcomes were; and on a concrete document with one failed chunk the
persisted chunk count is strictly smaller than the reported count. -/
theorem storeDocument_persists_embedded_chunks (doc : RAGSystem.RAGDocument)
    (documentId : String) (chunks : List ProcessRoute.DocumentChunk)
    (outcome : ℕ → Option (List ℚ)) :
    RAGSystem.chunkRecordKeys (RAGSystem.storeDocument doc) =
      (doc.chunks.filter (fun c => 0 < c.embedding.length)).map
        (fun c => "chunk:" ++ c.id) ∧
    RAGSystem.chunkSetAdds (RAGSystem.storeDocument doc) =
      (doc.chunks.filter (fun c => 0 < c.embedding.length)).map (fun c => c.id) ∧
    (ProcessRoute.processResponse documentId chunks outcome).chunksCount =
      chunks.length ∧
    (RAGSystem.chunkRecordKeys (RAGSystem.storeDocument sampleDoc)).length <
      sampleDoc.chunks.length := by
  refine ⟨?_, ?_, rfl, by decide⟩
  · have := (chunkWrites_filterMap doc.id doc.chunks).1
    simpa [RAGSystem.storeDocument, RAGSystem.chunkRecordKeys] using this
  · have := (chunkWrites_filterMap doc.id doc.chunks).2
    simpa [RAGSystem.storeDocument, RAGSystem.chunkSetAdds] using this
